import Mathlib

/-!
# Daylight — verification of the mood-entry service and aggregation engine

Shallow embedding of the Daylight repository's backend route handlers
(`src/unnamed/part_000` = the early `server.js`, `src/unnamed/part_001` =
the later `server.js` plus `routes/moods.js`) and of the frontend
aggregation function `prepareChartData`
(`src/daylight-frontend/src/App.js`, lines 534–577).

Modelling conventions:
* Request-body fields are JavaScript values (`JsVal`): `undef` models an
  absent field (`undefined`), `num` an integer number, `str` a string.
* `parseInt` on such values is `jsParseInt`; its `none` result models `NaN`.
* Timestamps are `Int` milliseconds since the Unix epoch (the value of
  `Date.prototype.getTime`, and of a Firestore `Timestamp` converted with
  `_seconds * 1000`).
* `new Date(v)` followed by `admin.firestore.Timestamp.fromDate` is an
  environment built-in, not code of this repository; handlers take it as a
  function argument `pd : JsVal → Option Int` (`none` = invalid date, in
  which case `Timestamp.fromDate` throws and the handler's `catch` answers
  HTTP 500).
* The Firestore collection is an association list `Store` of document id
  and document, in insertion order.  `add` appends with a fresh id,
  `update` merges the given fields into the addressed document in place —
  except that the firebase-admin client throws on an `update({})` with no
  field at all, which a handler's `catch` turns into the generic 500 —
  `delete` removes it; a query is a filter over the collection followed by
  an ordering on the queried field.
-/

namespace Daylight

/-- A JavaScript value as it reaches the route handlers through the parsed
JSON body: an absent field (`undefined`), an integer number, or a string. -/
inductive JsVal where
  | undef
  | num (n : Int)
  | str (s : String)
deriving DecidableEq, Repr

/-- JavaScript truthiness test (the `!v` guards in the handlers): `undefined`,
`0` and `""` are falsy; every other modelled value is truthy. -/
def jsFalsy : JsVal → Bool
  | .undef => true
  | .num n => n == 0
  | .str s => s == ""

/-- The numeric value of a decimal digit character, `none` otherwise. -/
def digitVal (c : Char) : Option Nat :=
  if c.isDigit then some (c.toNat - 48) else none

/-- The maximal leading run of decimal digits of a character list. -/
def leadingDigits : List Char → List Nat
  | [] => []
  | c :: cs =>
    match digitVal c with
    | some d => d :: leadingDigits cs
    | none => []

/-- The number a list of decimal digits denotes (most significant first). -/
def digitsToNat (ds : List Nat) : Nat := ds.foldl (fun a d => 10 * a + d) 0

/-- JavaScript `parseInt` on a string (radix 10): skip leading whitespace,
an optional sign, then the longest digit run; no digits means `NaN`,
modelled as `none`. -/
def parseIntStr (s : String) : Option Int :=
  let cs := (s.toList).dropWhile (fun c => c.isWhitespace)
  let signed : Bool × List Char :=
    match cs with
    | '-' :: rest => (true, rest)
    | '+' :: rest => (false, rest)
    | _ => (false, cs)
  match leadingDigits signed.2 with
  | [] => none
  | ds => some ((if signed.1 then -1 else 1) * (digitsToNat ds : Int))

/-- JavaScript `parseInt` on a handler's body field.  A number is truncated
toward zero — our model carries only integer numbers, so it is returned as
is; a string goes through `parseIntStr`; `parseInt(undefined)` is `NaN`
(`none`). -/
def jsParseInt : JsVal → Option Int
  | .num n => some n
  | .str s => parseIntStr s
  | .undef => none

/-- A stored `mood_ratings` document: `{userId, moodValue, notes,
recordedAt}` as written by the handlers.  `moodValue` is the result of
`parseInt` (`none` = `NaN`); `recordedAt` is the stored timestamp in
milliseconds. -/
structure StoredMood where
  userId : String
  moodValue : Option Int
  notes : JsVal
  recordedAt : Int
deriving DecidableEq, Repr

/-- The `mood_ratings` collection: document id and document, in insertion
order. -/
abbrev Store := List (String × StoredMood)

/-- The error outcomes of the handlers, each with its HTTP status and the
literal response message from the source. -/
inductive ApiError where
  /-- 400 `'Mood value is required.'` -/
  | moodValueRequired
  /-- 400 `'Recorded date and time is required.'` -/
  | recordedAtRequired
  /-- 404 `'Mood entry not found.'` -/
  | moodNotFound
  /-- 403 `'Unauthorized to update this mood entry.'` -/
  | forbiddenUpdate
  /-- 403 `'Unauthorized to delete this mood entry.'` -/
  | forbiddenDelete
  /-- 500, from the handler's `catch` (here: `Timestamp.fromDate` thrown on
  an invalid date). -/
  | internal
deriving DecidableEq, Repr

/-- A successful submit response: HTTP 201 with the generated document id.
(In `part_001` the `add` promise is not awaited, so the JSON field `moodId`
is actually `undefined` on the wire; the document id itself is still
generated and the document persisted, which is what we model.) -/
structure SubmitOk where
  status : Nat
  moodId : String
deriving DecidableEq, Repr

/-- The request body the mood handlers read: they destructure exactly
`{moodValue, notes, recordedAt}`.  The extra field `bodyUserId` models a
client-supplied owner field in the JSON body; no handler ever reads it. -/
structure MoodBody where
  moodValue : JsVal
  notes : JsVal
  recordedAt : JsVal
  bodyUserId : JsVal
deriving DecidableEq, Repr

/-- `router.post('/')` of `routes/moods.js` (`part_001`, lines 133–164):
reject a falsy `moodValue` (400), reject a falsy `recordedAt` (400),
convert `recordedAt` with `new Date`/`Timestamp.fromDate` (an invalid date
throws, caught as 500), then `add` the document
`{userId: firebaseUid, moodValue: parseInt(moodValue), notes: notes || '',
recordedAt}` and answer 201. -/
def submitMood (pd : JsVal → Option Int) (firebaseUid : String)
    (body : MoodBody) (newId : String) (store : Store) :
    Except ApiError SubmitOk × Store :=
  if jsFalsy body.moodValue then
    (.error .moodValueRequired, store)
  else if jsFalsy body.recordedAt then
    (.error .recordedAtRequired, store)
  else
    match pd body.recordedAt with
    | none => (.error .internal, store)
    | some ts =>
      (.ok ⟨201, newId⟩,
        store ++ [(newId,
          { userId := firebaseUid
            moodValue := jsParseInt body.moodValue
            notes := if jsFalsy body.notes then .str "" else body.notes
            recordedAt := ts })])

/-- `app.post('/api/moods')` of the early `server.js` (`part_000`, lines
95–120): reject a falsy `moodValue` (400); otherwise `add` the document
with `recordedAt: admin.firestore.FieldValue.serverTimestamp()` — the
body's `recordedAt`, if any, is never read; `serverNow` is the store's
write time. -/
def submitMoodLegacy (firebaseUid : String) (body : MoodBody)
    (newId : String) (serverNow : Int) (store : Store) :
    Except ApiError SubmitOk × Store :=
  if jsFalsy body.moodValue then
    (.error .moodValueRequired, store)
  else
    (.ok ⟨201, newId⟩,
      store ++ [(newId,
        { userId := firebaseUid
          moodValue := jsParseInt body.moodValue
          notes := if jsFalsy body.notes then .str "" else body.notes
          recordedAt := serverNow })])

/-- `db.collection('mood_ratings').doc(id).get()`: the document stored
under `id`, if any. -/
def findMood (store : Store) (id : String) : Option StoredMood :=
  match store with
  | [] => none
  | (k, v) :: rest => if k = id then some v else findMood rest id

/-- `doc(id).update(data)`: replace the document stored under `id`,
keeping its position in the collection. -/
def storeSet (id : String) (m : StoredMood) : Store → Store
  | [] => []
  | (k, v) :: rest =>
    if k = id then (k, m) :: rest else (k, v) :: storeSet id m rest

/-- The merged document `updateMood` writes: each field of `updateData` is
included exactly when the body field is not `undefined` (`!== undefined`
in the source); absent fields keep the stored value.  `tsNew` is the
already-converted timestamp for a present `recordedAt`. -/
def applyPatch (m : StoredMood) (body : MoodBody) (tsNew : Option Int) :
    StoredMood :=
  { userId := m.userId
    moodValue :=
      if body.moodValue = .undef then m.moodValue else jsParseInt body.moodValue
    notes := if body.notes = .undef then m.notes else body.notes
    recordedAt :=
      match tsNew with
      | some ts => ts
      | none => m.recordedAt }

/-- `router.put('/:id')` of `routes/moods.js` (`part_001`, lines 195–233):
get the document (404 when absent); check `doc.data().userId !==
firebaseUid` (403) strictly before building `updateData`; build
`updateData` from the body fields that are not `undefined`, converting a
present `recordedAt` with `new Date`/`Timestamp.fromDate` (an invalid date
throws before the write, caught as 500); then `moodRef.update(updateData)`
— which itself throws when `updateData` holds no field at all, since
firebase-admin requires at least one field to update, again caught as 500
with nothing written — and on a non-empty merge answer 200. -/
def updateMood (pd : JsVal → Option Int) (firebaseUid : String)
    (moodId : String) (body : MoodBody) (store : Store) :
    Except ApiError Nat × Store :=
  match findMood store moodId with
  | none => (.error .moodNotFound, store)
  | some m =>
    if m.userId ≠ firebaseUid then
      (.error .forbiddenUpdate, store)
    else
      match body.recordedAt, pd body.recordedAt with
      | .undef, _ =>
        if body.moodValue = .undef ∧ body.notes = .undef then
          (.error .internal, store)
        else
          (.ok 200, storeSet moodId (applyPatch m body none) store)
      | _, none => (.error .internal, store)
      | _, some ts => (.ok 200, storeSet moodId (applyPatch m body (some ts)) store)

/-- `router.delete('/:id')` of `routes/moods.js` (`part_001`, lines
236–261): get the document (404 when absent); check ownership (403);
then `delete` the document and answer 204. -/
def deleteMood (firebaseUid : String) (moodId : String) (store : Store) :
    Except ApiError Nat × Store :=
  match findMood store moodId with
  | none => (.error .moodNotFound, store)
  | some m =>
    if m.userId ≠ firebaseUid then
      (.error .forbiddenDelete, store)
    else
      (.ok 204, store.filter (fun p => p.1 ≠ moodId))

/-- Milliseconds per day. -/
def msPerDay : Int := 86400000

/-- The ordering the query's `orderBy('recordedAt', 'desc')` establishes:
newest first. -/
def newestFirst (a b : String × StoredMood) : Prop :=
  b.2.recordedAt ≤ a.2.recordedAt

instance : DecidableRel newestFirst := fun a b =>
  inferInstanceAs (Decidable (b.2.recordedAt ≤ a.2.recordedAt))

instance : IsTotal (String × StoredMood) newestFirst :=
  ⟨fun a b => le_total b.2.recordedAt a.2.recordedAt⟩

instance : IsTrans (String × StoredMood) newestFirst :=
  ⟨fun _ _ _ h1 h2 => le_trans h2 h1⟩

/-- `router.get('/recent')` of `routes/moods.js` (`part_001`, lines
167–192): `days = parseInt(req.query.days || '30')` (`none` models an
absent or empty `days` parameter), `cutOffDate = now` moved back `days`
days with `setDate` (subtraction of whole days, the time of day kept), and
the Firestore query
`where('userId','==',uid).where('recordedAt','>=',cutOff).orderBy('recordedAt','desc')`:
the documents of the caller at or after the cutoff, newest first. -/
def listRecentMoods (firebaseUid : String) (daysQ : Option Int) (now : Int)
    (store : Store) : List (String × StoredMood) :=
  let days := daysQ.getD 30
  let cutOff := now - days * msPerDay
  (store.filter
    (fun p => p.2.userId == firebaseUid && decide (cutOff ≤ p.2.recordedAt))).insertionSort
      newestFirst

/-- A mood entry as the chart code sees it after
`new Date(mood.recordedAt._seconds * 1000)`: a timestamp in milliseconds
and an integer rating. -/
structure ChartMood where
  recordedAt : Int
  moodValue : Int
deriving DecidableEq, Repr

/-- The grouping key `date.toISOString().split('T')[0]` of
`prepareChartData`: `toISOString` renders the UTC calendar date, and two
timestamps render the same `YYYY-MM-DD` exactly when they lie in the same
UTC day, i.e. have the same floor quotient by `msPerDay`; the key is
modelled as that UTC day number. -/
def dayKey (ms : Int) : Int := Int.fdiv ms msPerDay

/-- One value of the `dailyMoods` accumulator object: the running
`totalRating` and `count` of the bucket, and `originalDate` — the
timestamp of the first entry encountered for this date. -/
structure DayBucket where
  totalRating : Int
  count : Nat
  originalDate : Int
deriving DecidableEq, Repr

/-- One `forEach` step of `prepareChartData`: add the entry to its date's
bucket, creating the bucket (at the end, as a new object key) when the
date is new; `originalDate` is set only at creation. -/
def addToBuckets (e : ChartMood) :
    List (Int × DayBucket) → List (Int × DayBucket)
  | [] => [(dayKey e.recordedAt, ⟨e.moodValue, 1, e.recordedAt⟩)]
  | (k, b) :: rest =>
    if k = dayKey e.recordedAt then
      (k, ⟨b.totalRating + e.moodValue, b.count + 1, b.originalDate⟩) :: rest
    else
      (k, b) :: addToBuckets e rest

/-- The `dailyMoods` object after the `forEach` loop: keys in insertion
(first-occurrence) order, as a JavaScript object with string keys keeps
them. -/
def dailyMoods (moods : List ChartMood) : List (Int × DayBucket) :=
  moods.foldl (fun acc e => addToBuckets e acc) []

/-- Ascending sort of day keys:
`Object.keys(dailyMoods).sort((a, b) => new Date(a) - new Date(b))` —
the numeric comparator on the dates' timestamps orders the keys by day
ascending. -/
def sortAsc (ks : List Int) : List Int :=
  ks.insertionSort (fun a b => a ≤ b)

/-- The `sortedDates` array of `prepareChartData` (as day numbers). -/
def sortedDates (moods : List ChartMood) : List Int :=
  sortAsc ((dailyMoods moods).map Prod.fst)

/-- `avg.toFixed(2)` then `parseFloat`: the average rounded to two decimal
places (ties modelled as rounding half up). -/
def roundTo2 (q : ℚ) : ℚ := (round (q * 100) : ℤ) / 100

/-- One chart point of `prepareChartData`'s output: `x` is
`originalDate.getTime()`, `y` the bucket average rounded to two decimals,
`markerRounded` the `Math.round(avgRating)` used to pick the marker
colour. -/
structure ChartPoint where
  x : Int
  y : ℚ
  markerRounded : Int
deriving DecidableEq, Repr

/-- The bucket stored under key `k` in the accumulator. -/
def findBucket (k : Int) : List (Int × DayBucket) → Option DayBucket
  | [] => none
  | (k', b) :: rest => if k' = k then some b else findBucket k rest

/-- The chart point `prepareChartData` builds for one date key of the
`dailyMoods` object (the lookup cannot miss, since the keys come from the
object; a missed lookup yields a junk point). -/
def chartPointOf (dm : List (Int × DayBucket)) (k : Int) : ChartPoint :=
  match findBucket k dm with
  | none => ⟨0, 0, 0⟩
  | some b =>
    let avg : ℚ := (b.totalRating : ℚ) / (b.count : ℚ)
    ⟨b.originalDate, roundTo2 avg, round avg⟩

/-- `prepareChartData` (`App.js`, lines 534–577): group the moods by the
UTC date of `recordedAt`, sort the dates ascending, and map each date to
its chart point. -/
def prepareChartData (moods : List ChartMood) : List ChartPoint :=
  let dm := dailyMoods moods
  (sortAsc (dm.map Prod.fst)).map (chartPointOf dm)

/-- `parseDate` instance for concrete checks: `new Date(n)` on an integer
number of milliseconds is that instant; no other modelled value is a valid
date. -/
def pdMillis : JsVal → Option Int
  | .num n => some n
  | _ => none

/-! ## Helper lemmas -/

/-- Writing back the very document that is stored under `id` leaves the
collection unchanged. -/
theorem storeSet_of_findMood {store : Store} {id : String} {m : StoredMood}
    (h : findMood store id = some m) : storeSet id m store = store := by
  induction store with
  | nil => simp [findMood] at h
  | cons p rest ih =>
    obtain ⟨k, v⟩ := p
    by_cases hk : k = id
    · subst hk
      simp only [findMood, if_true, Option.some.injEq, eq_self_iff_true] at h
      simp [storeSet, h.symm]
    · simp only [findMood, if_neg hk] at h
      simp [storeSet, hk, ih h]

/-- The ratings recorded on day `k`, summed over a mood list. -/
def ratingSumOn (l : List ChartMood) (k : Int) : Int :=
  ((l.filter (fun e => dayKey e.recordedAt == k)).map
    (fun e => e.moodValue)).sum

/-- How many entries of a mood list fall on day `k`. -/
def countOn (l : List ChartMood) (k : Int) : Nat :=
  (l.filter (fun e => dayKey e.recordedAt == k)).length

/-- How `addToBuckets` changes a single key's bucket. -/
theorem findBucket_addToBuckets (e : ChartMood)
    (acc : List (Int × DayBucket)) (k : Int) :
    findBucket k (addToBuckets e acc) =
      if dayKey e.recordedAt = k then
        match findBucket k acc with
        | some b => some ⟨b.totalRating + e.moodValue, b.count + 1, b.originalDate⟩
        | none => some ⟨e.moodValue, 1, e.recordedAt⟩
      else findBucket k acc := by
  induction acc with
  | nil =>
    by_cases h : dayKey e.recordedAt = k <;>
      simp [addToBuckets, findBucket, h]
  | cons p rest ih =>
    obtain ⟨k', b⟩ := p
    by_cases h1 : k' = dayKey e.recordedAt
    · subst h1
      by_cases h2 : dayKey e.recordedAt = k <;>
        simp [addToBuckets, findBucket, h2]
    · by_cases h2 : k' = k
      · subst h2
        have h3 : ¬dayKey e.recordedAt = k' := fun hc => h1 hc.symm
        simp [addToBuckets, findBucket, h1, h3]
      · simp [addToBuckets, findBucket, h1, h2, ih]

/-- The bucket a key holds after folding a whole mood list, relative to
what the accumulator already held. -/
theorem findBucket_foldl (k : Int) (l : List ChartMood) :
    ∀ acc : List (Int × DayBucket),
    findBucket k (l.foldl (fun a e => addToBuckets e a) acc) =
      match findBucket k acc with
      | some b =>
          some ⟨b.totalRating + ratingSumOn l k, b.count + countOn l k,
            b.originalDate⟩
      | none =>
          match l.filter (fun e => dayKey e.recordedAt == k) with
          | [] => none
          | e₀ :: _ => some ⟨ratingSumOn l k, countOn l k, e₀.recordedAt⟩ := by
  induction l with
  | nil =>
    intro acc
    cases hb : findBucket k acc
    · simp [ratingSumOn, countOn, hb]
    · simp only [List.foldl_nil, hb, ratingSumOn, countOn, List.filter_nil,
        List.map_nil, List.sum_nil, List.length_nil, add_zero, Nat.add_zero]
  | cons e l ih =>
    intro acc
    have hstep :
        (e :: l).foldl (fun a e => addToBuckets e a) acc =
          l.foldl (fun a e => addToBuckets e a) (addToBuckets e acc) := rfl
    rw [hstep, ih (addToBuckets e acc), findBucket_addToBuckets]
    by_cases hk : dayKey e.recordedAt = k
    · have hkb : (dayKey e.recordedAt == k) = true := by simp [hk]
      have hfe : (e :: l).filter (fun e => dayKey e.recordedAt == k) =
          e :: l.filter (fun e => dayKey e.recordedAt == k) := by
        simp [List.filter, hkb]
      have hsum : ratingSumOn (e :: l) k = e.moodValue + ratingSumOn l k := by
        simp [ratingSumOn, hfe]
      have hcnt : countOn (e :: l) k = countOn l k + 1 := by
        simp [countOn, hfe, Nat.add_comm]
      cases hb : findBucket k acc with
      | none =>
        simp [hk, hb, hfe, hsum, hcnt, Nat.add_comm]
      | some b =>
        have h1 : b.totalRating + e.moodValue + ratingSumOn l k =
            b.totalRating + (e.moodValue + ratingSumOn l k) := by ring
        have h2 : b.count + 1 + countOn l k = b.count + (countOn l k + 1) := by
          omega
        simp [hk, hb, hsum, hcnt, h1, h2]
    · have hkb : (dayKey e.recordedAt == k) = false := by simp [hk]
      have hfe : (e :: l).filter (fun e => dayKey e.recordedAt == k) =
          l.filter (fun e => dayKey e.recordedAt == k) := by
        simp [List.filter, hkb]
      have hsum : ratingSumOn (e :: l) k = ratingSumOn l k := by
        simp [ratingSumOn, hfe]
      have hcnt : countOn (e :: l) k = countOn l k := by
        simp [countOn, hfe]
      simp only [hk, if_false, hsum, hcnt, hfe]

/-- The accumulated bucket of each day of a mood list: total rating and
count come from exactly the entries of that day, `originalDate` from the
first of them. -/
theorem findBucket_dailyMoods (l : List ChartMood) (k : Int) :
    findBucket k (dailyMoods l) =
      match l.filter (fun e => dayKey e.recordedAt == k) with
      | [] => none
      | e₀ :: _ => some ⟨ratingSumOn l k, countOn l k, e₀.recordedAt⟩ := by
  have h := findBucket_foldl k l []
  simpa [dailyMoods, findBucket] using h

/-- A key misses in an association list exactly when it is none of the
stored keys. -/
theorem findBucket_eq_none_iff (dm : List (Int × DayBucket)) (k : Int) :
    findBucket k dm = none ↔ k ∉ dm.map Prod.fst := by
  induction dm with
  | nil => simp [findBucket]
  | cons p rest ih =>
    obtain ⟨k', b⟩ := p
    by_cases h : k' = k
    · subst h
      simp [findBucket]
    · rw [show findBucket k ((k', b) :: rest) = findBucket k rest from by
        simp [findBucket, h], ih]
      simp only [List.map_cons, List.mem_cons, not_or]
      constructor
      · intro hn
        exact ⟨fun hc => h hc.symm, hn⟩
      · intro hn
        exact hn.2

/-- The keys `addToBuckets` leaves: unchanged when the entry's day is
already present, otherwise the new day appended at the end. -/
theorem keys_addToBuckets (e : ChartMood) (acc : List (Int × DayBucket)) :
    (addToBuckets e acc).map Prod.fst =
      if findBucket (dayKey e.recordedAt) acc = none then
        acc.map Prod.fst ++ [dayKey e.recordedAt]
      else acc.map Prod.fst := by
  induction acc with
  | nil => simp [addToBuckets, findBucket]
  | cons p rest ih =>
    obtain ⟨k', b⟩ := p
    by_cases h : k' = dayKey e.recordedAt
    · subst h
      simp [addToBuckets, findBucket]
    · have h2 : ¬(k' = dayKey e.recordedAt) := h
      have h4 : ¬(dayKey e.recordedAt = k') := fun hc => h2 hc.symm
      by_cases h3 : findBucket (dayKey e.recordedAt) rest = none <;>
        simp [addToBuckets, findBucket, h2, h4, h3, ih]

/-- The day keys of the accumulator stay duplicate-free along the fold. -/
theorem nodup_keys_foldl (l : List ChartMood) :
    ∀ acc : List (Int × DayBucket), (acc.map Prod.fst).Nodup →
      ((l.foldl (fun a e => addToBuckets e a) acc).map Prod.fst).Nodup := by
  induction l with
  | nil => intro acc h; exact h
  | cons e l ih =>
    intro acc h
    refine ih (addToBuckets e acc) ?_
    rw [keys_addToBuckets]
    by_cases hb : findBucket (dayKey e.recordedAt) acc = none
    · rw [if_pos hb]
      have hnotin : dayKey e.recordedAt ∉ acc.map Prod.fst :=
        (findBucket_eq_none_iff acc _).mp hb
      rw [List.nodup_append]
      refine ⟨h, List.nodup_singleton _, ?_⟩
      intro a ha hmem
      rw [List.mem_singleton] at hmem
      subst hmem
      exact hnotin ha
    · rw [if_neg hb]; exact h

/-- The day keys of `dailyMoods` are duplicate-free. -/
theorem nodup_keys_dailyMoods (l : List ChartMood) :
    ((dailyMoods l).map Prod.fst).Nodup :=
  nodup_keys_foldl l [] (by simp)

/-- A day key occurs in `dailyMoods` exactly when some entry falls on that
day. -/
theorem mem_keys_dailyMoods (l : List ChartMood) (k : Int) :
    k ∈ (dailyMoods l).map Prod.fst ↔ ∃ e ∈ l, dayKey e.recordedAt = k := by
  constructor
  · intro hmem
    by_contra hnone
    push_neg at hnone
    have hfil : l.filter (fun e => dayKey e.recordedAt == k) = [] := by
      rw [List.filter_eq_nil_iff]
      intro e he
      simp [hnone e he]
    have hb : findBucket k (dailyMoods l) = none := by
      rw [findBucket_dailyMoods, hfil]
    exact absurd hmem ((findBucket_eq_none_iff _ _).mp hb)
  · intro hex
    obtain ⟨e, he, hk⟩ := hex
    by_contra hmem
    have hb := (findBucket_eq_none_iff (dailyMoods l) k).mpr hmem
    rw [findBucket_dailyMoods] at hb
    have hmemf : e ∈ l.filter (fun e => dayKey e.recordedAt == k) := by
      simp [List.mem_filter, he, hk]
    cases hf : l.filter (fun e => dayKey e.recordedAt == k) with
    | nil =>
      rw [hf] at hmemf
      exact absurd hmemf (List.not_mem_nil e)
    | cons e₀ rest =>
      rw [hf] at hb
      exact absurd hb (by simp)

/-- Sorting ascending is determined by the multiset of keys. -/
theorem sortAsc_eq_of_perm {ks₁ ks₂ : List Int} (h : ks₁.Perm ks₂) :
    sortAsc ks₁ = sortAsc ks₂ :=
  List.eq_of_perm_of_sorted
    (((List.perm_insertionSort _ ks₁).trans h).trans
      (List.perm_insertionSort _ ks₂).symm)
    (List.sorted_insertionSort _ ks₁)
    (List.sorted_insertionSort _ ks₂)

/-! ## Claims -/

/-- **C1** (corrected), counterexample: a submit with rating `6` — outside
`{1,2,3,4,5}` — does not fail with a `ValidationError`; it succeeds with
status 201 and persists the entry with `moodValue = 6`. -/
theorem submit_accepts_rating_six :
    submitMood pdMillis "alice" ⟨.num 6, .undef, .num 1700000000000, .undef⟩
        "m1" [] =
      (.ok ⟨201, "m1"⟩,
       [("m1", ⟨"alice", some 6, .str "", 1700000000000⟩)]) := by
  rfl

/-- **C1** (amended): a submit by an authenticated caller succeeds exactly
when `moodValue` is truthy, `recordedAt` is truthy and the supplied
`recordedAt` converts to a valid date — the rating's membership in
`{1..5}` is never checked.  A falsy rating (absent, `0`, `""`) fails with
the 400 `ValidationError` and persists nothing, and every other failure
persists nothing; a successful submit persists `parseInt(moodValue)`
unvalidated (so `6` is stored as `6` and `"x"` as `NaN`). -/
theorem submit_validation_characterization (pd : JsVal → Option Int)
    (uid : String) (body : MoodBody) (newId : String) (store : Store) :
    ((∃ r, (submitMood pd uid body newId store).1 = .ok r) ↔
      (jsFalsy body.moodValue = false ∧ jsFalsy body.recordedAt = false ∧
        (pd body.recordedAt).isSome = true))
  ∧ (jsFalsy body.moodValue = true →
      submitMood pd uid body newId store = (.error .moodValueRequired, store))
  ∧ (∀ e, (submitMood pd uid body newId store).1 = .error e →
      (submitMood pd uid body newId store).2 = store)
  ∧ (∀ r st, submitMood pd uid body newId store = (.ok r, st) →
      ∃ m, st = store ++ [(newId, m)] ∧ m.moodValue = jsParseInt body.moodValue) := by
  cases hm : jsFalsy body.moodValue <;>
    cases hr : jsFalsy body.recordedAt <;>
      cases hp : pd body.recordedAt <;>
        simp [submitMood, hm, hr, hp]

/-- **C2** (confirmed): for an existing entry whose owner differs from the
authenticated caller, update and delete both fail with the 403
`AuthorizationError`, and the store — in particular the entry itself — is
returned completely unchanged, whatever the patch contains: the ownership
check precedes any application of patch fields or deletion. -/
theorem ownership_checked_before_mutation (pd : JsVal → Option Int)
    (uid moodId : String) (body : MoodBody) (store : Store) (m : StoredMood)
    (hfind : findMood store moodId = some m) (hown : m.userId ≠ uid) :
    updateMood pd uid moodId body store = (.error .forbiddenUpdate, store)
  ∧ deleteMood uid moodId store = (.error .forbiddenDelete, store) := by
  constructor
  · simp [updateMood, hfind, hown]
  · simp [deleteMood, hfind, hown]

/-- Witness for C2 at a concrete input: caller `bob` can neither update
nor delete `alice`'s entry, and the store is unchanged. -/
theorem ownership_checked_before_mutation_witness :
    updateMood pdMillis "bob" "m1" ⟨.num 2, .undef, .undef, .undef⟩
        [("m1", ⟨"alice", some 3, .str "", 0⟩)] =
      (.error .forbiddenUpdate, [("m1", ⟨"alice", some 3, .str "", 0⟩)])
  ∧ deleteMood "bob" "m1" [("m1", ⟨"alice", some 3, .str "", 0⟩)] =
      (.error .forbiddenDelete, [("m1", ⟨"alice", some 3, .str "", 0⟩)]) :=
  ownership_checked_before_mutation pdMillis "bob" "m1"
    ⟨.num 2, .undef, .undef, .undef⟩
    [("m1", ⟨"alice", some 3, .str "", 0⟩)] ⟨"alice", some 3, .str "", 0⟩
    (by decide) (by decide)

/-- **C3** (confirmed): the persisted `userId` comes from the verified
token's subject (`req.firebaseUid`) only.  A submit is entirely unchanged
when the client-supplied owner field of the body is replaced by anything
else, and every successful submit appends an entry whose `userId` equals
the token subject. -/
theorem ownerId_from_token_only (pd : JsVal → Option Int) (uid : String)
    (body : MoodBody) (v : JsVal) (newId : String) (store : Store) :
    submitMood pd uid ⟨body.moodValue, body.notes, body.recordedAt, v⟩ newId
        store =
      submitMood pd uid body newId store
  ∧ (∀ r st, submitMood pd uid body newId store = (.ok r, st) →
      ∃ m, st = store ++ [(newId, m)] ∧ m.userId = uid) := by
  constructor
  · rfl
  · intro r st h
    cases hm : jsFalsy body.moodValue <;>
      cases hr : jsFalsy body.recordedAt <;>
        cases hp : pd body.recordedAt <;>
          simp [submitMood, hm, hr, hp] at h <;>
            simp [h.2.symm]

/-- **C4** (corrected), counterexample: an owner's update carrying rating
`6` is applied verbatim — the store afterwards holds `moodValue = 6`,
outside `[1,5]`, so the invariant is not preserved and no revalidation
happens. -/
theorem update_accepts_rating_six :
    updateMood pdMillis "alice" "m1" ⟨.num 6, .undef, .undef, .undef⟩
        [("m1", ⟨"alice", some 3, .str "", 0⟩)] =
      (.ok 200, [("m1", ⟨"alice", some 6, .str "", 0⟩)]) := by
  rfl

/-- **C4** (amended): neither submit nor update checks the rating against
`{1..5}`; the only guard is submit's truthiness test.  Any nonzero integer
rating `v` — in range or not — is persisted by submit exactly as given,
and an owner's update containing any integer rating `v` overwrites the
stored rating with exactly `v`: nothing is clamped or coerced, and the
`rating ∈ [1,5]` store invariant is not enforced. -/
theorem rating_range_not_enforced (uid newId moodId : String) (v ts : Int)
    (store : Store) (m : StoredMood) :
    (v ≠ 0 → ts ≠ 0 →
      submitMood pdMillis uid ⟨.num v, .undef, .num ts, .undef⟩ newId store =
        (.ok ⟨201, newId⟩, store ++ [(newId, ⟨uid, some v, .str "", ts⟩)]))
  ∧ (findMood store moodId = some m → m.userId = uid →
      updateMood pdMillis uid moodId ⟨.num v, .undef, .undef, .undef⟩ store =
        (.ok 200, storeSet moodId ⟨uid, some v, m.notes, m.recordedAt⟩ store)) := by
  constructor
  · intro hv hts
    simp [submitMood, jsFalsy, pdMillis, jsParseInt, hv, hts]
  · intro hfind hown
    simp only [updateMood, hfind]
    rw [if_neg (by simp [hown])]
    have hpatch :
        applyPatch m ⟨.num v, .undef, .undef, .undef⟩ none =
          ⟨m.userId, some v, m.notes, m.recordedAt⟩ := rfl
    simp [hpatch, hown]

/-- **C6** (corrected), counterexample: a submit that omits `recordedAt`
does not succeed — the route answers the 400 `ValidationError`
`'Recorded date and time is required.'` and persists nothing. -/
theorem submit_rejects_missing_recordedAt :
    submitMood pdMillis "alice" ⟨.num 4, .str "ok", .undef, .undef⟩ "m1" [] =
      (.error .recordedAtRequired, []) := by
  rfl

/-- **C6** (amended): the routes version requires `recordedAt` — omitting
it fails with the 400 `ValidationError` (nothing defaulted); only the
legacy `server.js` endpoint stamps the entry with the server's current
time, ignoring any body `recordedAt`; and a supplied `recordedAt` that is
not a well-formed timestamp makes the routes version fail with the generic
500 error from the thrown conversion, not with a `ValidationError`. -/
theorem recordedAt_handling (pd : JsVal → Option Int) (uid : String)
    (body : MoodBody) (newId : String) (serverNow : Int) (store : Store) :
    (body.recordedAt = .undef → jsFalsy body.moodValue = false →
      submitMood pd uid body newId store = (.error .recordedAtRequired, store))
  ∧ (jsFalsy body.moodValue = false →
      submitMoodLegacy uid body newId serverNow store =
        (.ok ⟨201, newId⟩,
         store ++ [(newId, ⟨uid, jsParseInt body.moodValue,
           if jsFalsy body.notes then .str "" else body.notes, serverNow⟩)]))
  ∧ (jsFalsy body.moodValue = false → jsFalsy body.recordedAt = false →
      pd body.recordedAt = none →
      submitMood pd uid body newId store = (.error .internal, store)) := by
  refine ⟨?_, ?_, ?_⟩
  · intro h1 h2
    have hu : jsFalsy JsVal.undef = true := rfl
    simp [submitMood, h2, h1, hu]
  · intro h
    simp [submitMoodLegacy, h]
  · intro h1 h2 h3
    simp [submitMood, h1, h2, h3]

/-- **C9** (confirmed): an owner's update applies exactly the fields
present in the patch.  An empty patch writes nothing and leaves the store
entirely unchanged — firebase-admin refuses the field-less
`update({})`, so the route answers the generic 500 with the entry
untouched; a notes-only patch changes exactly the notes; and for
every accepted patch the written entry keeps the prior value of every
absent field, takes `parseInt` of a present rating and the given value of
present notes, and never touches `userId`. -/
theorem update_applies_only_patch_fields (pd : JsVal → Option Int)
    (uid moodId : String) (store : Store) (m : StoredMood)
    (hfind : findMood store moodId = some m) (hown : m.userId = uid) :
    updateMood pd uid moodId ⟨.undef, .undef, .undef, .undef⟩ store =
      (.error .internal, store)
  ∧ (∀ nv : JsVal, nv ≠ .undef →
      updateMood pd uid moodId ⟨.undef, nv, .undef, .undef⟩ store =
        (.ok 200, storeSet moodId ⟨m.userId, m.moodValue, nv, m.recordedAt⟩ store))
  ∧ (∀ body : MoodBody, ∀ r st,
      updateMood pd uid moodId body store = (.ok r, st) →
      ∃ m', st = storeSet moodId m' store
        ∧ m'.userId = m.userId
        ∧ (body.moodValue = .undef → m'.moodValue = m.moodValue)
        ∧ (body.moodValue ≠ .undef → m'.moodValue = jsParseInt body.moodValue)
        ∧ (body.notes = .undef → m'.notes = m.notes)
        ∧ (body.notes ≠ .undef → m'.notes = body.notes)
        ∧ (body.recordedAt = .undef → m'.recordedAt = m.recordedAt)) := by
  refine ⟨?_, ?_, ?_⟩
  · simp [updateMood, hfind, hown]
  · intro nv hnv
    simp [updateMood, hfind, hown, applyPatch, hnv]
  · intro body r st h
    simp only [updateMood, hfind] at h
    rw [if_neg (by simp [hown])] at h
    rcases hra : body.recordedAt with _ | n | s
    · rw [hra] at h
      by_cases hemp : body.moodValue = .undef ∧ body.notes = .undef
      · obtain ⟨hmv, hn⟩ := hemp
        simp [hmv, hn] at h
      · simp only [if_neg hemp, Prod.mk.injEq] at h
        refine ⟨applyPatch m body none, h.2.symm, rfl, ?_, ?_, ?_, ?_, ?_⟩
        · intro hmv; simp [applyPatch, hmv]
        · intro hmv; simp [applyPatch, hmv]
        · intro hn; simp [applyPatch, hn]
        · intro hn; simp [applyPatch, hn]
        · intro hu; simp [applyPatch]
    · rw [hra] at h
      cases hp : pd (JsVal.num n) <;> rw [hp] at h <;> simp only [Prod.mk.injEq] at h
      · exact absurd h.1 (by simp)
      · refine ⟨applyPatch m body (pd (JsVal.num n)), ?_, rfl, ?_, ?_, ?_, ?_, ?_⟩
        · rw [hp]; exact h.2.symm
        · intro hmv; simp [applyPatch, hmv]
        · intro hmv; simp [applyPatch, hmv]
        · intro hn; simp [applyPatch, hn]
        · intro hn; simp [applyPatch, hn]
        · intro hcontra; exact absurd hcontra (by simp)
    · rw [hra] at h
      cases hp : pd (JsVal.str s) <;> rw [hp] at h <;> simp only [Prod.mk.injEq] at h
      · exact absurd h.1 (by simp)
      · refine ⟨applyPatch m body (pd (JsVal.str s)), ?_, rfl, ?_, ?_, ?_, ?_, ?_⟩
        · rw [hp]; exact h.2.symm
        · intro hmv; simp [applyPatch, hmv]
        · intro hmv; simp [applyPatch, hmv]
        · intro hn; simp [applyPatch, hn]
        · intro hn; simp [applyPatch, hn]
        · intro hcontra; exact absurd hcontra (by simp)

/-- Witness for C9 at a concrete input: `alice` updates her own entry —
the empty patch writes nothing (the store client refuses it, surfaced as
the generic 500, store untouched), and patches change exactly the
supplied fields. -/
theorem update_applies_only_patch_fields_witness :
    updateMood pdMillis "alice" "m1" ⟨.undef, .undef, .undef, .undef⟩
        [("m1", ⟨"alice", some 3, .str "", 0⟩)] =
      (.error .internal, [("m1", ⟨"alice", some 3, .str "", 0⟩)])
  ∧ (∀ nv : JsVal, nv ≠ .undef →
      updateMood pdMillis "alice" "m1" ⟨.undef, nv, .undef, .undef⟩
          [("m1", ⟨"alice", some 3, .str "", 0⟩)] =
        (.ok 200, storeSet "m1" ⟨"alice", some 3, nv, 0⟩
          [("m1", ⟨"alice", some 3, .str "", 0⟩)]))
  ∧ (∀ body : MoodBody, ∀ r st,
      updateMood pdMillis "alice" "m1" body
          [("m1", ⟨"alice", some 3, .str "", 0⟩)] = (.ok r, st) →
      ∃ m', st = storeSet "m1" m' [("m1", ⟨"alice", some 3, .str "", 0⟩)]
        ∧ m'.userId = "alice"
        ∧ (body.moodValue = .undef → m'.moodValue = some 3)
        ∧ (body.moodValue ≠ .undef → m'.moodValue = jsParseInt body.moodValue)
        ∧ (body.notes = .undef → m'.notes = .str "")
        ∧ (body.notes ≠ .undef → m'.notes = body.notes)
        ∧ (body.recordedAt = .undef → m'.recordedAt = 0)) :=
  update_applies_only_patch_fields pdMillis "alice" "m1"
    [("m1", ⟨"alice", some 3, .str "", 0⟩)] ⟨"alice", some 3, .str "", 0⟩
    (by decide) rfl

/-- **C5** (corrected), counterexample: two entries on the same UTC day in
the two possible orders — the dates and averages agree, but the bucket's
chart point `x` is the timestamp of whichever entry was encountered first,
so permuting the input changes the output. -/
theorem chart_x_depends_on_order :
    ([⟨0, 3⟩, ⟨1000, 5⟩] : List ChartMood).Perm [⟨1000, 5⟩, ⟨0, 3⟩]
  ∧ prepareChartData [⟨0, 3⟩, ⟨1000, 5⟩] ≠
      prepareChartData [⟨1000, 5⟩, ⟨0, 3⟩] := by
  constructor
  · decide
  · decide

/-- **C5** (amended): `prepareChartData` is order-independent in its date
sequence and in its displayed values — permuting the input entries yields
the same sorted date keys and, bucket for bucket, the same rounded average
`y` and the same marker rounding — but not in the chart point's `x`
timestamp, which comes from the first entry encountered for the date
(see the counterexample). -/
theorem chart_perm_invariant (l₁ l₂ : List ChartMood) (h : l₁.Perm l₂) :
    sortedDates l₁ = sortedDates l₂
  ∧ (prepareChartData l₁).map (fun p => (p.y, p.markerRounded)) =
      (prepareChartData l₂).map (fun p => (p.y, p.markerRounded)) := by
  have hkeys : ((dailyMoods l₁).map Prod.fst).Perm
      ((dailyMoods l₂).map Prod.fst) := by
    rw [List.perm_ext_iff_of_nodup (nodup_keys_dailyMoods l₁)
      (nodup_keys_dailyMoods l₂)]
    intro k
    rw [mem_keys_dailyMoods, mem_keys_dailyMoods]
    constructor
    · intro hex
      obtain ⟨e, he, hk⟩ := hex
      exact ⟨e, h.mem_iff.mp he, hk⟩
    · intro hex
      obtain ⟨e, he, hk⟩ := hex
      exact ⟨e, h.mem_iff.mpr he, hk⟩
  have hsort : sortAsc ((dailyMoods l₁).map Prod.fst) =
      sortAsc ((dailyMoods l₂).map Prod.fst) := sortAsc_eq_of_perm hkeys
  refine ⟨hsort, ?_⟩
  simp only [prepareChartData]
  rw [List.map_map, List.map_map, ← hsort]
  refine List.map_congr_left ?_
  intro k hk
  have hk1 : k ∈ (dailyMoods l₁).map Prod.fst := by
    simpa [sortAsc] using hk
  have hfil : (l₁.filter (fun e => dayKey e.recordedAt == k)).Perm
      (l₂.filter (fun e => dayKey e.recordedAt == k)) := h.filter _
  have hsum : ratingSumOn l₁ k = ratingSumOn l₂ k := by
    unfold ratingSumOn
    exact (hfil.map _).sum_eq
  have hcnt : countOn l₁ k = countOn l₂ k := by
    unfold countOn
    exact hfil.length_eq
  rcases hf1 : l₁.filter (fun e => dayKey e.recordedAt == k) with _ | ⟨a, as⟩
  · exfalso
    obtain ⟨e, he, hke⟩ := (mem_keys_dailyMoods l₁ k).mp hk1
    have : e ∈ l₁.filter (fun e => dayKey e.recordedAt == k) := by
      simp [List.mem_filter, he, hke]
    rw [hf1] at this
    exact absurd this (List.not_mem_nil e)
  · rcases hf2 : l₂.filter (fun e => dayKey e.recordedAt == k) with _ | ⟨c, cs⟩
    · exfalso
      rw [hf1, hf2] at hfil
      exact List.cons_ne_nil a as hfil.eq_nil
    · have hb1 : findBucket k (dailyMoods l₁) =
          some ⟨ratingSumOn l₁ k, countOn l₁ k, a.recordedAt⟩ := by
        rw [findBucket_dailyMoods, hf1]
      have hb2 : findBucket k (dailyMoods l₂) =
          some ⟨ratingSumOn l₂ k, countOn l₂ k, c.recordedAt⟩ := by
        rw [findBucket_dailyMoods, hf2]
      simp [chartPointOf, hb1, hb2, hsum, hcnt]

/-- Witness for C5's amended theorem at a concrete permutation: the same
two entries in swapped order give the same dates and displayed values. -/
theorem chart_perm_invariant_witness :
    sortedDates [⟨0, 3⟩, ⟨1000, 5⟩] = sortedDates [⟨1000, 5⟩, ⟨0, 3⟩]
  ∧ (prepareChartData [⟨0, 3⟩, ⟨1000, 5⟩]).map
        (fun p => (p.y, p.markerRounded)) =
      (prepareChartData [⟨1000, 5⟩, ⟨0, 3⟩]).map
        (fun p => (p.y, p.markerRounded)) :=
  chart_perm_invariant [⟨0, 3⟩, ⟨1000, 5⟩] [⟨1000, 5⟩, ⟨0, 3⟩] (by decide)

/-- **C7** (confirmed): for a positive window, the recent-moods query
returns exactly the caller's entries recorded at or after
`now − days·msPerDay` (whole days subtracted from the current instant, no
truncation to a day boundary), ordered by `recordedAt` newest first; other
callers' entries and entries before the cutoff never appear, and when
nothing qualifies the result is the empty list, not an error. -/
theorem listRecent_spec (uid : String) (days now : Int) (store : Store)
    (hdays : 0 < days) :
    (∀ p, p ∈ listRecentMoods uid (some days) now store ↔
        (p ∈ store ∧ p.2.userId = uid ∧
          now - days * msPerDay ≤ p.2.recordedAt))
  ∧ (listRecentMoods uid (some days) now store).Pairwise newestFirst
  ∧ ((∀ p ∈ store, p.2.userId = uid →
        p.2.recordedAt < now - days * msPerDay) →
      listRecentMoods uid (some days) now store = []) := by
  have hmem : ∀ p, p ∈ listRecentMoods uid (some days) now store ↔
      (p ∈ store ∧ p.2.userId = uid ∧
        now - days * msPerDay ≤ p.2.recordedAt) := by
    intro p
    simp [listRecentMoods, List.mem_filter, and_assoc]
  refine ⟨hmem, ?_, ?_⟩
  · exact List.sorted_insertionSort newestFirst _
  · intro hall
    rw [List.eq_nil_iff_forall_not_mem]
    intro p hp
    rw [hmem p] at hp
    exact absurd hp.2.2 (not_le.mpr (hall p hp.1 hp.2.1))

/-- Witness for C7 at a concrete input: a 7-day window over a one-entry
store of the caller, entry just before `now`. -/
theorem listRecent_spec_witness :
    (∀ p : String × StoredMood, p ∈ listRecentMoods "alice" (some 7) 0
        [("a", ⟨"alice", some 3, .str "", -1000⟩)] ↔
        (p ∈ ([("a", ⟨"alice", some 3, .str "", -1000⟩)] : Store) ∧
          p.2.userId = "alice" ∧
          (0 : Int) - 7 * msPerDay ≤ p.2.recordedAt))
  ∧ (listRecentMoods "alice" (some 7) 0
      [("a", ⟨"alice", some 3, .str "", -1000⟩)]).Pairwise newestFirst
  ∧ ((∀ p ∈ ([("a", ⟨"alice", some 3, .str "", -1000⟩)] : Store),
        p.2.userId = "alice" → p.2.recordedAt < (0 : Int) - 7 * msPerDay) →
      listRecentMoods "alice" (some 7) 0
        [("a", ⟨"alice", some 3, .str "", -1000⟩)] = []) :=
  listRecent_spec "alice" 7 0 [("a", ⟨"alice", some 3, .str "", -1000⟩)]
    (by norm_num)

/-- **C8** (confirmed): for two entries on 2024-01-01 (UTC day 19723) with
ratings 2 and 4 and one on 2024-01-02 (UTC day 19724) with rating 5, the
chart preparation yields exactly the buckets for those two days in
ascending (oldest-first) date order, with averages 3.00 and 5.00 — each
the arithmetic mean of the day's ratings rounded to two decimals. -/
theorem chart_scenario_two_days :
    sortedDates [⟨1704067201000, 2⟩, ⟨1704067202000, 4⟩,
        ⟨1704153605000, 5⟩] = [19723, 19724]
  ∧ (prepareChartData [⟨1704067201000, 2⟩, ⟨1704067202000, 4⟩,
        ⟨1704153605000, 5⟩]).map ChartPoint.y = [3, 5] := by
  have h1 : Int.fdiv 1704067201000 86400000 = 19723 := by decide
  have h2 : Int.fdiv 1704067202000 86400000 = 19723 := by decide
  have h3 : Int.fdiv 1704153605000 86400000 = 19724 := by decide
  constructor
  · norm_num [sortedDates, dailyMoods, addToBuckets, sortAsc, dayKey,
      msPerDay, List.insertionSort, List.orderedInsert, h1, h2, h3]
  · norm_num [prepareChartData, dailyMoods, addToBuckets, sortAsc,
      sortedDates, dayKey, chartPointOf, findBucket, roundTo2, msPerDay,
      List.insertionSort, List.orderedInsert, h1, h2, h3]

/-- **C10** (confirmed): the grouping key is the UTC calendar day of
`recordedAt` — two entries share the single bucket exactly when their
timestamps have the same floor quotient by a UTC day, independent of any
local reporting zone.  Concretely, 2024-01-01T23:30Z and 2024-01-02T00:30Z
land in two different buckets although a UTC+2 clock puts both on
2024-01-02. -/
theorem bucketing_by_utc_day (e1 e2 : ChartMood) :
    ((dailyMoods [e1, e2]).length = 1 ↔
      Int.fdiv e1.recordedAt msPerDay = Int.fdiv e2.recordedAt msPerDay)
  ∧ ((dailyMoods [e1, e2]).length = 2 ↔
      Int.fdiv e1.recordedAt msPerDay ≠ Int.fdiv e2.recordedAt msPerDay)
  ∧ (dailyMoods [⟨1704151800000, 4⟩, ⟨1704155400000, 5⟩]).length = 2
  ∧ Int.fdiv (1704151800000 + 7200000) msPerDay =
      Int.fdiv (1704155400000 + 7200000) msPerDay := by
  refine ⟨?_, ?_, ?_, ?_⟩
  · by_cases h : Int.fdiv e1.recordedAt msPerDay =
        Int.fdiv e2.recordedAt msPerDay <;>
      simp [dailyMoods, addToBuckets, dayKey, h]
  · by_cases h : Int.fdiv e1.recordedAt msPerDay =
        Int.fdiv e2.recordedAt msPerDay <;>
      simp [dailyMoods, addToBuckets, dayKey, h]
  · decide
  · decide

end Daylight
